import Mathlib

set_option linter.all false

/-!
Shallow embedding of the lyric synchronization and translation pipeline of
the Spotify lyrics translator (`src/app.py`, class `SpotifyLyricsTranslator`),
together with proofs about the specification's claims.

The embedded fragment covers:
* `translate_line` and `translate_words` (lines 505-527), with the
  `ThreadPoolExecutor`/`as_completed` completion order made explicit as a
  list of indices;
* the bounded insertion-ordered cache built from the Python dict
  `self.lyrics_cache` (assignment, conditional `pop(next(iter(...)))`,
  lines 520-523), modelled as an association list in insertion order;
* `update_current_lyric` (lines 484-496), `ms_to_min_sec` (lines 498-503);
* `update_lyrics` (lines 529-558), `update_translations` (lines 560-572);
* `get_current_playback_position` and `update_display` (lines 435-482);
* the startup cache load (lines 419-423).

GUI-only behaviour (labels, column widths, tooltips, theming) is out of
scope and omitted.
-/

/-- Errors raised by the embedded Python code: a generic exception with a
message, a dict `KeyError`, or a list `IndexError`. -/
inductive PyErr where
  | exn (msg : String)
  | keyError (key : String)
  | indexError
  deriving DecidableEq, Repr

/-- A raw lyric line as returned by the lyrics source: the dict with keys
`startTimeMs` (milliseconds from track start) and `words` (original text). -/
structure RawLine where
  startTimeMs : Nat
  words : String
  deriving DecidableEq, Repr

/-- A translated lyric line as produced by `translate_line`: the dict with
keys `startTimeMs`, `words` and `translated`. -/
structure TransLine where
  startTimeMs : Nat
  words : String
  translated : String
  deriving DecidableEq, Repr

/-- `translate_line` (src/app.py lines 505-512).  The remote translator is
modelled as a function returning `Except`: `.ok t` when
`translator.translate(original_text)` returns `t`, `.error msg` when it
raises.  On failure the translated text falls back to the original text. -/
def translate_line (translator : String → Except String String)
    (line : RawLine) : TransLine :=
  let original_text := line.words
  let translated_text :=
    match translator original_text with
    | .ok t => t
    | .error _ => original_text
  { startTimeMs := line.startTimeMs, words := original_text,
    translated := translated_text }

/-- The translation cache `self.lyrics_cache`: a Python dict from song id to
translated lyrics.  Python dicts preserve insertion order, so the model is an
association list in insertion order (head = oldest first-insertion). -/
abbrev Cache := List (String × List TransLine)

/-- `MAX_CACHE_SIZE` (src/app.py line 55). -/
def MAX_CACHE_SIZE : Nat := 1000

/-- Python dict assignment `d[k] = v` on an insertion-ordered dict: if the
key is present its value is overwritten in place (insertion position kept),
otherwise the binding is appended at the end. -/
def dict_set (d : Cache) (k : String) (v : List TransLine) : Cache :=
  if d.any (fun p => p.1 == k) then
    d.map (fun p => if p.1 == k then (k, v) else p)
  else d ++ [(k, v)]

/-- The cache insertion performed inline in `translate_words`
(src/app.py lines 520-523):
`self.lyrics_cache[song_id] = v` followed by
`if len(self.lyrics_cache) > cap: self.lyrics_cache.pop(next(iter(self.lyrics_cache)))`.
`next(iter(d))` is the oldest-inserted key, so the pop removes the head of
the association list.  The capacity is a parameter here; the source fixes it
to `MAX_CACHE_SIZE` (see `cache_put`). -/
def cache_put_cap (cap : Nat) (d : Cache) (k : String) (v : List TransLine) :
    Cache :=
  let d1 := dict_set d k v
  if cap < d1.length then d1.tail else d1

/-- The cache insertion of `translate_words` at the source's capacity
`MAX_CACHE_SIZE` (src/app.py lines 520-523). -/
def cache_put (d : Cache) (k : String) (v : List TransLine) : Cache :=
  cache_put_cap MAX_CACHE_SIZE d k v

/-- Cache read `d[k]` / `k in d` (src/app.py line 551-552): a pure lookup,
reads do not reorder the dict. -/
def cache_get (d : Cache) (k : String) : Option (List TransLine) :=
  (d.find? (fun p => p.1 == k)).map (fun p => p.2)

/-- The list comprehension
`[future.result() for future in as_completed(futures)]` of `translate_words`
(src/app.py line 519): `futures` holds one task per input line, in input
order, and `as_completed` yields them in completion order.  The completion
order is modelled as the list `order` of indices into `lyrics`. -/
def as_completed_results (translator : String → Except String String)
    (lyrics : List RawLine) (order : List Nat) : List TransLine :=
  order.filterMap (fun i => (lyrics.get? i).map (translate_line translator))

/-- `translate_words` (src/app.py lines 514-527), run on a worker thread.
`translator.translate(song_name)` (line 516) is not guarded by a
try/except, so its failure aborts the whole batch; per-line calls are
guarded inside `translate_line`.  Returns the updated cache and the list
passed to the callback (`update_translations`); `save_cache` persistence
and the GUI side of the callback are modelled separately. -/
def translate_words (translator : String → Except String String)
    (lyrics : List RawLine) (song_name song_id : String)
    (order : List Nat) (cache : Cache) :
    Except String (Cache × List TransLine) :=
  match translator song_name with
  | .error e => .error e
  | .ok _ =>
    let translated_lyrics := as_completed_results translator lyrics order
    let cache1 := cache_put cache song_id translated_lyrics
    .ok (cache1, translated_lyrics)

/-- The Time cell of a tree row.  The source stores the string
`f"{minutes}:{seconds:02d}"` produced by `ms_to_min_sec`; since `seconds` is
always rendered with exactly two digits and `minutes` in plain decimal, that
string determines and is determined by the pair `(minutes, seconds)`, which
the model stores directly. -/
structure TimeCell where
  minutes : Nat
  seconds : Nat
  deriving DecidableEq, Repr

/-- `ms_to_min_sec` (src/app.py lines 498-503):
`minutes = ms // 60000; seconds = (ms % 60000) // 1000`, rendered as
`f"{minutes}:{seconds:02d}"` (see `TimeCell`). -/
def ms_to_min_sec (ms : Nat) : TimeCell :=
  { minutes := ms / 60000, seconds := ms % 60000 / 1000 }

/-- One row of the Treeview: the values triple
`(Time, Original Lyrics, Translated Lyrics)`. -/
structure Row where
  time : TimeCell
  words : String
  translated : String
  deriving DecidableEq, Repr

/-- The expression
`int(values[0].split(":")[0]) * 60000 + int(values[0].split(":")[1]) * 1000`
of `update_current_lyric` (src/app.py line 489): the displayed `M:SS` string
parsed back to milliseconds. -/
def tree_item_start_time (c : TimeCell) : Nat :=
  c.minutes * 60000 + c.seconds * 1000

/-- The loop of `update_current_lyric` (src/app.py lines 486-493): walk the
rows in order with a running `last_index`; remember the index while the
parsed start time is at or before the position, `break` at the first row
beyond it. -/
def update_current_lyric_go (pos : Int) :
    List Row → Nat → Option Nat → Option Nat
  | [], _, last_index => last_index
  | r :: rs, i, last_index =>
    if (tree_item_start_time r.time : Int) ≤ pos then
      update_current_lyric_go pos rs (i + 1) (some i)
    else
      last_index

/-- `update_current_lyric` (src/app.py lines 484-496): returns the index of
the row that gets selected (`selection_set`), or `none` when no row
qualifies (Tk item ids are non-empty strings, so `if last_index:` is true
exactly when a row was remembered). -/
def update_current_lyric (tree : List Row) (pos : Int) : Option Nat :=
  update_current_lyric_go pos tree 0 none

/-- The row inserted for one fetched lyric line (src/app.py line 549):
`values=(ms_to_min_sec(lyric['startTimeMs']), lyric['words'], "")`. -/
def insert_lyric_row (l : RawLine) : Row :=
  { time := ms_to_min_sec l.startTimeMs, words := l.words, translated := "" }

/-- The placeholder row inserted when no lyrics are available
(src/app.py line 557): `values=("0:00", "(No lyrics available)", "")`. -/
def no_lyrics_row : Row :=
  { time := { minutes := 0, seconds := 0 }, words := "(No lyrics available)",
    translated := "" }

/-- Rewrite one row of the matching loop of `update_translations`
(src/app.py lines 561-568): scan `translated_lyrics` for the first entry
whose displayed time and original words match the row, set the row's
Translated Lyrics cell from it. -/
def match_row (tl : List TransLine) (row : Row) : Row :=
  match tl.find? (fun lyric =>
      decide (ms_to_min_sec lyric.startTimeMs = row.time ∧
              lyric.words = row.words)) with
  | some lyric => { row with translated := lyric.translated }
  | none => row

/-- Set the Translated Lyrics cell of the first row
(src/app.py lines 569-571). -/
def set_first_translated (t : String) : List Row → List Row
  | [] => []
  | r :: rs => { r with translated := t } :: rs

/-- `update_translations` (src/app.py lines 560-572): rewrite every row by
keyed matching, then unconditionally overwrite the first row's translation
with `translated_lyrics[0]['translated']`; that subscript raises
`IndexError` when the tree is non-empty but `translated_lyrics` is empty.
`adjust_column_widths` is GUI-only and omitted. -/
def update_translations (tree : List Row) (translated_lyrics : List TransLine) :
    Except PyErr (List Row) :=
  let tree1 := tree.map (match_row translated_lyrics)
  match tree1 with
  | [] => .ok tree1
  | _ :: _ =>
    match translated_lyrics with
    | lyric0 :: _ => .ok (set_first_translated lyric0.translated tree1)
    | [] => .error .indexError

/-- The playback object returned by `self.sp.get_current_song()`, restricted
to the fields the embedded fragment reads. -/
structure Song where
  id : String
  name : String
  artist : String
  album : String
  duration_ms : Nat
  progress_ms : Int
  is_playing : Bool
  deriving DecidableEq, Repr

/-- The value of `lyrics['lyrics']` when the key is present: the dict may or
may not carry the `lines` and `language` keys. -/
structure LyricsObj where
  lines : Option (List RawLine)
  language : Option String
  deriving DecidableEq, Repr

/-- The value returned by `self.sp.get_lyrics(song_id)` when it does not
raise: `none` models a falsy response, `some r` a dict in which the
`lyrics` key may be present or absent. -/
structure LyricsResp where
  lyricsObj : Option LyricsObj
  deriving DecidableEq, Repr

/-- The Spotify client `self.sp` during one poll tick: the result of
`get_current_song()` (shared by the calls in `get_current_playback_position`
and `update_lyrics`, which run within the same tick) and of
`get_lyrics(song_id)`.  `.error` models the call raising. -/
structure SpClient where
  get_current_song : Except PyErr Song
  get_lyrics : String → Except PyErr (Option LyricsResp)

/-- The mutable application state touched by the embedded fragment:
`self.current_song_id`, the Treeview rows, `self.lyrics_cache`,
`self.translation_complete` and `self.language`. -/
structure AppState where
  current_song_id : Option String
  tree : List Row
  lyrics_cache : Cache
  translation_complete : Bool
  language : String
  deriving DecidableEq, Repr

/-- The arguments of the worker thread spawned by `update_lyrics`
(src/app.py lines 554-555): `(lyrics_data, song_name, song_id)`, with
`self.update_translations` as callback. -/
structure SpawnArgs where
  lyrics_data : List RawLine
  song_name : String
  song_id : String
  deriving DecidableEq, Repr

/-- The expression
`lyrics['lyrics']['lines'] if lyrics and 'lyrics' in lyrics and 'lines' in lyrics['lyrics'] else None`
(src/app.py line 535). -/
def extract_lyrics_lines (lyrics : Option LyricsResp) : Option (List RawLine) :=
  match lyrics with
  | some r =>
    match r.lyricsObj with
    | some obj => obj.lines
    | none => none
  | none => none

/-- The access `lyrics['lyrics']['language']` (src/app.py line 544),
evaluated only on the branch where `lyrics['lyrics']['lines']` exists and is
non-empty; `none` means the `language` key is missing and the access raises
`KeyError`. -/
def extract_lyrics_language (lyrics : Option LyricsResp) : Option String :=
  match lyrics with
  | some r =>
    match r.lyricsObj with
    | some obj => obj.language
    | none => none
  | none => none

/-- `update_lyrics` (src/app.py lines 529-558).  Not guarded by any
try/except: failures of `get_current_song`, `get_lyrics`, the `KeyError`
on a missing `language` key, and an `IndexError` inside a cache-hit
`update_translations` all propagate to the caller.  The tree is cleared
(line 541), then either filled with one row per line, or with the single
placeholder row when `lyrics_data` is falsy (`None` or an empty list).
On a cache hit `update_translations` is applied directly; on a miss a
worker thread running `translate_words` is spawned, returned here as
`SpawnArgs`.  The `heading`/label updates and `adjust_column_widths` are
GUI-only and omitted. -/
def update_lyrics (sp : SpClient) (st : AppState) :
    Except PyErr (AppState × Option SpawnArgs) := do
  let current_song ← sp.get_current_song
  let song_id := current_song.id
  let song_name := current_song.name
  let lyrics ← sp.get_lyrics song_id
  let lyrics_data := extract_lyrics_lines lyrics
  let st := { st with tree := [] }
  match lyrics_data with
  | some (hd :: tl) =>
    match extract_lyrics_language lyrics with
    | none => .error (.keyError "language")
    | some detected_lang =>
      let st := { st with language := detected_lang,
                          tree := (hd :: tl).map insert_lyric_row,
                          translation_complete := false }
      match cache_get st.lyrics_cache song_id with
      | some cached => do
        let tree1 ← update_translations st.tree cached
        .ok ({ st with tree := tree1 }, none)
      | none =>
        .ok (st, some { lyrics_data := hd :: tl, song_name := song_name,
                        song_id := song_id })
  | _ =>
    .ok ({ st with tree := [no_lyrics_row] }, none)

/-- `get_current_playback_position` (src/app.py lines 435-442): the only
try/except of the poll tick; a failing `get_current_song` is caught and
turned into `(None, 0)`. -/
def get_current_playback_position (sp : SpClient) : Option Song × Int :=
  match sp.get_current_song with
  | .ok s => (some s, s.progress_ms)
  | .error _ => (none, 0)

/-- The observable outcome of one successful poll tick (`update_display`):
the new state, the translation thread spawned (if any), the row selected by
`update_current_lyric`, whether `get_lyrics` was called this tick, and
whether the final `self.root.after(500, self.update_display)` (line 482)
ran, i.e. whether the next tick was scheduled. -/
structure TickOut where
  st : AppState
  spawned : Option SpawnArgs
  selection : Option Nat
  fetched_lyrics : Bool
  scheduled_next : Bool
  deriving DecidableEq, Repr

/-- `update_display` (src/app.py lines 444-482), one poll tick.  The body
has no try/except of its own, so an exception escaping `update_lyrics`
skips the trailing `self.root.after(500, self.update_display)` and the poll
loop is not rescheduled; the `.error` outcome models exactly that.  Label,
progress-bar and time updates are GUI-only and omitted. -/
def update_display (sp : SpClient) (st : AppState) : Except PyErr TickOut :=
  let pr := get_current_playback_position sp
  match pr.1 with
  | some current_song =>
    let song_id := current_song.id
    if some song_id ≠ st.current_song_id then
      let st1 := { st with current_song_id := some song_id }
      match update_lyrics sp st1 with
      | .error e => .error e
      | .ok (st2, sp_args) =>
        .ok { st := st2, spawned := sp_args,
              selection := update_current_lyric st2.tree pr.2,
              fetched_lyrics := true, scheduled_next := true }
    else
      .ok { st := st, spawned := none,
            selection := update_current_lyric st.tree pr.2,
            fetched_lyrics := false, scheduled_next := true }
  | none =>
    .ok { st := st, spawned := none, selection := none,
          fetched_lyrics := false, scheduled_next := true }

/-- The persisted cache file (`lyrics_cache.pkl`) at startup: missing,
present and deserializable, or present but corrupt (with the message of the
exception `pickle.load` raises). -/
inductive CacheFile where
  | missing
  | valid (cache : Cache)
  | corrupt (msg : String)
  deriving DecidableEq, Repr

/-- The cache-loading block of `initialize_main_gui` (src/app.py lines
419-423): a missing file yields the empty dict; `pickle.load` on a present
file is not guarded by any try/except, so a corrupt file raises out of
`initialize_main_gui` (the exception is then caught by `setup_gui`'s
authentication handler, which abandons initialization and opens the login
dialog). -/
def load_cache : CacheFile → Except PyErr Cache
  | .missing => .ok []
  | .valid c => .ok c
  | .corrupt m => .error (.exn m)

/-- Specification-side description of current-line resolution (for claim
C2): the greatest index whose offset, truncated down to whole seconds (the
granularity of the displayed `M:SS` cell), is at or before the position;
`none` when no line qualifies. -/
def lastTruncatedOffsetLE (pos : Int) : List RawLine → Option Nat
  | [] => none
  | l :: ls =>
    match lastTruncatedOffsetLE pos ls with
    | some j => some (j + 1)
    | none =>
      if ((l.startTimeMs / 1000 * 1000 : Nat) : Int) ≤ pos then some 0
      else none

/-- A concrete playback object used in counterexamples and witnesses. -/
def songX : Song :=
  { id := "x", name := "n", artist := "a", album := "al",
    duration_ms := 1000, progress_ms := 0, is_playing := true }

/-- A client whose playback query raises (network hiccup). -/
def spErrClient : SpClient :=
  { get_current_song := .error (.exn "net"), get_lyrics := fun _ => .ok none }

/-- A client whose playback query succeeds but whose lyrics fetch raises. -/
def spLyricsErrClient : SpClient :=
  { get_current_song := .ok songX, get_lyrics := fun _ => .error (.exn "network") }

/-- A client for which no lyrics are available (falsy response). -/
def spNoLyricsClient : SpClient :=
  { get_current_song := .ok songX, get_lyrics := fun _ => .ok none }

/-- A client returning malformed lyrics data: the lines are present but the
language key is missing. -/
def spLangMissingClient : SpClient :=
  { get_current_song := .ok songX,
    get_lyrics := fun _ =>
      .ok (some { lyricsObj := some { lines := some [{ startTimeMs := 0, words := "la" }], language := none } }) }

/-- The initial application state right after `initialize_main_gui`. -/
def st0 : AppState :=
  { current_song_id := none, tree := [], lyrics_cache := [],
    translation_complete := false, language := "" }

/-- An application state already tracking `songX`. -/
def stX : AppState :=
  { current_song_id := some "x", tree := [no_lyrics_row], lyrics_cache := [],
    translation_complete := false, language := "" }

/-- Key family used to build concrete witness caches: distinct strings of
repeated characters. -/
def aKey (n : Nat) : String := String.mk (List.replicate n 'a')

/-- A concrete cache filled to exactly `MAX_CACHE_SIZE` distinct keys. -/
def c3FullCache : Cache := (List.range MAX_CACHE_SIZE).map (fun n => (aKey n, []))

/-- A concrete list of `MAX_CACHE_SIZE + 1` distinct keys. -/
def c3Keys : List String := (List.range (MAX_CACHE_SIZE + 1)).map aKey

/-! ## Helper lemmas about the cache -/

theorem dict_set_fresh (d : Cache) (k : String) (v : List TransLine)
    (h : k ∉ d.map Prod.fst) : dict_set d k v = d ++ [(k, v)] := by
  unfold dict_set
  rw [if_neg]
  intro hany
  rcases List.any_eq_true.mp hany with ⟨p, hp, hpk⟩
  exact h (by
    rw [← eq_of_beq hpk]
    exact List.mem_map_of_mem Prod.fst hp)

theorem dict_set_present_keys (d : Cache) (k : String) (v : List TransLine)
    (h : k ∈ d.map Prod.fst) :
    (dict_set d k v).map Prod.fst = d.map Prod.fst := by
  unfold dict_set
  rw [if_pos]
  · rw [List.map_map]
    apply List.map_congr_left
    intro p _
    by_cases hp : p.1 = k
    · simp [hp]
    · simp [hp]
  · rcases List.mem_map.mp h with ⟨p, hp, hpk⟩
    exact List.any_eq_true.mpr ⟨p, hp, beq_iff_eq.mpr hpk⟩

theorem dict_set_length (d : Cache) (k : String) (v : List TransLine) :
    (dict_set d k v).length = if k ∈ d.map Prod.fst then d.length
      else d.length + 1 := by
  unfold dict_set
  by_cases h : k ∈ d.map Prod.fst
  · rw [if_pos h, if_pos, List.length_map]
    rcases List.mem_map.mp h with ⟨p, hp, hpk⟩
    exact List.any_eq_true.mpr ⟨p, hp, beq_iff_eq.mpr hpk⟩
  · rw [if_neg h, if_neg]
    · simp
    · intro hany
      rcases List.any_eq_true.mp hany with ⟨p, hp, hpk⟩
      exact h (by
        rw [← eq_of_beq hpk]
        exact List.mem_map_of_mem Prod.fst hp)

theorem cache_put_cap_length_le (cap : Nat) (d : Cache) (k : String)
    (v : List TransLine) (h : d.length ≤ cap) :
    (cache_put_cap cap d k v).length ≤ cap := by
  unfold cache_put_cap
  dsimp only
  rw [dict_set_length]
  by_cases hk : k ∈ d.map Prod.fst
  · rw [if_pos hk]
    rw [if_neg (by omega)]
    rw [dict_set_length, if_pos hk]
    exact h
  · rw [if_neg hk]
    by_cases hlen : cap < d.length + 1
    · rw [if_pos hlen, List.length_tail, dict_set_length, if_neg hk]
      omega
    · rw [if_neg hlen, dict_set_length, if_neg hk]
      omega

theorem cache_put_cap_at_capacity (cap : Nat) (d : Cache) (k : String)
    (v : List TransLine) (hcap : 0 < cap) (hlen : d.length = cap)
    (hk : k ∉ d.map Prod.fst) :
    cache_put_cap cap d k v = d.tail ++ [(k, v)] := by
  unfold cache_put_cap
  dsimp only
  rw [dict_set_fresh d k v hk]
  rw [if_pos (by simp [hlen])]
  cases d with
  | nil =>
    simp at hlen
    omega
  | cons p ps => simp

theorem cache_put_cap_no_evict (cap : Nat) (d : Cache) (k : String)
    (v : List TransLine) (hlen : d.length + 1 ≤ cap)
    (hk : k ∉ d.map Prod.fst) :
    cache_put_cap cap d k v = d ++ [(k, v)] := by
  unfold cache_put_cap
  dsimp only
  rw [dict_set_fresh d k v hk]
  rw [if_neg (by simp; omega)]

theorem foldl_cache_put_cap_fresh (cap : Nat) (f : String → List TransLine) :
    ∀ (ks : List String) (d : Cache), ks.Nodup →
      (∀ k ∈ ks, k ∉ d.map Prod.fst) →
      d.length + ks.length ≤ cap →
      ks.foldl (fun c k => cache_put_cap cap c k (f k)) d =
        d ++ ks.map (fun k => (k, f k)) := by
  intro ks
  induction ks with
  | nil => intro d _ _ _; simp
  | cons k ks ih =>
    intro d hnd hfresh hlen
    rw [List.foldl_cons]
    rw [cache_put_cap_no_evict cap d k (f k)
      (by simp at hlen; omega) (hfresh k (by simp))]
    rw [ih (d ++ [(k, f k)]) (List.Nodup.of_cons hnd)
      (by
        intro k' hk'
        simp only [List.map_append, List.mem_append, List.map_cons,
          List.map_nil, List.mem_singleton, not_or]
        constructor
        · exact hfresh k' (by simp [hk'])
        · intro hkk
          have := (List.nodup_cons.mp hnd).1
          exact this (by simpa [hkk] using hk'))
      (by simp at hlen ⊢; omega)]
    simp

theorem find?_overwrite_self (k : String) (v : List TransLine) :
    ∀ d : Cache, k ∈ d.map Prod.fst →
      (d.map (fun p => if p.1 == k then (k, v) else p)).find?
        (fun p => p.1 == k) = some (k, v) := by
  intro d
  induction d with
  | nil => simp
  | cons p ps ih =>
    intro h
    by_cases hp : p.1 = k
    · simp [List.find?, hp]
    · have hbeq : (p.1 == k) = false := beq_eq_false_iff_ne.mpr hp
      simp only [List.map_cons, hbeq, Bool.false_eq_true, if_false, List.find?, hbeq]
      exact ih (by
        rcases List.mem_map.mp h with ⟨q, hq, hqk⟩
        rcases List.mem_cons.mp hq with hq1 | hq2
        · exact absurd (hq1 ▸ hqk) hp
        · exact List.mem_map.mpr ⟨q, hq2, hqk⟩)

theorem find?_overwrite_other (k k' : String) (v : List TransLine)
    (h : k' ≠ k) :
    ∀ d : Cache,
      (d.map (fun p => if p.1 == k then (k, v) else p)).find?
        (fun p => p.1 == k') = d.find? (fun p => p.1 == k') := by
  intro d
  induction d with
  | nil => simp
  | cons p ps ih =>
    by_cases hp : p.1 = k
    · have hbeq : (p.1 == k) = true := beq_iff_eq.mpr hp
      have hk1 : (k == k') = false := beq_eq_false_iff_ne.mpr (fun hkk => h hkk.symm)
      have hk2 : (p.1 == k') = false := beq_eq_false_iff_ne.mpr (by
        rw [hp]; exact fun hkk => h hkk.symm)
      simp only [List.map_cons, hbeq, if_true, List.find?, hk1, hk2]
      exact ih
    · have hbeq : (p.1 == k) = false := beq_eq_false_iff_ne.mpr hp
      simp only [List.map_cons, hbeq, Bool.false_eq_true, if_false, List.find?]
      cases hpk' : (p.1 == k') with
      | true => rfl
      | false => exact ih

theorem cache_get_dict_set_self (d : Cache) (k : String) (v : List TransLine)
    (h : k ∈ d.map Prod.fst) : cache_get (dict_set d k v) k = some v := by
  unfold dict_set
  rw [if_pos (by
    rcases List.mem_map.mp h with ⟨p, hp, hpk⟩
    exact List.any_eq_true.mpr ⟨p, hp, beq_iff_eq.mpr hpk⟩)]
  unfold cache_get
  rw [find?_overwrite_self k v d h]
  rfl

theorem cache_get_dict_set_other (d : Cache) (k k' : String)
    (v : List TransLine) (h : k' ≠ k) :
    cache_get (dict_set d k v) k' = cache_get d k' := by
  unfold dict_set
  by_cases hany : d.any (fun p => p.1 == k)
  · rw [if_pos hany]
    unfold cache_get
    rw [find?_overwrite_other k k' v h d]
  · rw [if_neg hany]
    unfold cache_get
    rw [List.find?_append]
    rw [show List.find? (fun p => p.1 == k') [(k, v)] = none from by
      simp only [List.find?, show (k == k') = false from
        beq_eq_false_iff_ne.mpr (fun hkk => h hkk.symm)]]
    simp

theorem cache_put_cap_present (cap : Nat) (d : Cache) (k : String)
    (v : List TransLine) (hlen : d.length ≤ cap)
    (hk : k ∈ d.map Prod.fst) :
    cache_put_cap cap d k v = dict_set d k v := by
  unfold cache_put_cap
  dsimp only
  rw [if_neg (by rw [dict_set_length, if_pos hk]; omega)]

theorem map_fst_assoc (f : String → List TransLine) (ks : List String) :
    (ks.map (fun k => (k, f k))).map Prod.fst = ks := by
  induction ks with
  | nil => rfl
  | cons a l ih => simp [ih]

theorem foldl_cache_put_overflow (cap : Nat) (hcap : 0 < cap)
    (f : String → List TransLine) (ks : List String)
    (hnd : ks.Nodup) (hlen : ks.length = cap + 1) :
    ks.foldl (fun c k => cache_put_cap cap c k (f k)) [] =
      ks.tail.map (fun k => (k, f k)) := by
  have hne : ks ≠ [] := by intro h; rw [h] at hlen; simp at hlen
  obtain ⟨init, last, hks⟩ : ∃ init last, ks = init ++ [last] :=
    ⟨ks.dropLast, ks.getLast hne, (List.dropLast_append_getLast hne).symm⟩
  subst hks
  have hnd' := List.nodup_append.mp hnd
  have hinitlen : init.length = cap := by simp at hlen; omega
  rw [List.foldl_append]
  rw [foldl_cache_put_cap_fresh cap f init [] hnd'.1 (by simp)
    (by simp [hinitlen])]
  rw [List.foldl_cons, List.foldl_nil, List.nil_append]
  rw [cache_put_cap_at_capacity cap _ last (f last) hcap
    (by rw [List.length_map]; exact hinitlen)
    (by
      rw [map_fst_assoc]
      intro hmem
      exact (hnd'.2.2 hmem) (by simp))]
  cases init with
  | nil => simp at hinitlen; omega
  | cons i0 irest => simp

/-- C3: for every sequence of puts, (a) starting from a cache within
capacity, a put keeps the cache at no more than `MAX_CACHE_SIZE = 1000`
entries; (b) a put of a fresh key into a cache at exactly capacity removes
exactly the oldest-inserted entry (the head of the insertion order) and
appends the new one; (c) folding `MAX_CACHE_SIZE + 1` distinct keys into an
empty cache leaves exactly the most recently inserted `MAX_CACHE_SIZE` keys
in insertion order, with the first-inserted key absent.  Reads
(`cache_get`) are pure lookups, so they never promote. -/
theorem c3_cache_fifo_bound :
    (∀ (d : Cache) (k : String) (v : List TransLine),
        d.length ≤ MAX_CACHE_SIZE →
        (cache_put d k v).length ≤ MAX_CACHE_SIZE) ∧
    (∀ (d : Cache) (k : String) (v : List TransLine),
        d.length = MAX_CACHE_SIZE → k ∉ d.map Prod.fst →
        cache_put d k v = d.tail ++ [(k, v)]) ∧
    (∀ (ks : List String) (f : String → List TransLine),
        ks.Nodup → ks.length = MAX_CACHE_SIZE + 1 →
        ks.foldl (fun c k => cache_put c k (f k)) [] =
          ks.tail.map (fun k => (k, f k)) ∧
        ∀ k₀, ks.head? = some k₀ →
          k₀ ∉ (ks.foldl (fun c k => cache_put c k (f k)) []).map Prod.fst) := by
  refine ⟨?_, ?_, ?_⟩
  · intro d k v h
    exact cache_put_cap_length_le MAX_CACHE_SIZE d k v h
  · intro d k v hlen hk
    exact cache_put_cap_at_capacity MAX_CACHE_SIZE d k v (by decide) hlen hk
  · intro ks f hnd hlen
    have hfold := foldl_cache_put_overflow MAX_CACHE_SIZE (by decide) f ks hnd hlen
    refine ⟨by simp only [cache_put]; exact hfold, ?_⟩
    intro k₀ hk₀ hmem
    have hks : ks = k₀ :: ks.tail := by
      cases ks with
      | nil => simp at hk₀
      | cons a l => simp at hk₀; simp [hk₀]
    simp only [cache_put] at hmem
    rw [hfold, map_fst_assoc] at hmem
    have : ¬ k₀ ∈ ks.tail := by
      rw [hks] at hnd
      exact (List.nodup_cons.mp hnd).1
    exact this hmem

theorem aKey_injective : Function.Injective aKey := by
  intro m n h
  have h2 : List.replicate m 'a' = List.replicate n 'a' := congrArg String.data h
  have h3 := congrArg List.length h2
  simpa using h3

theorem c3FullCache_length : c3FullCache.length = MAX_CACHE_SIZE := by
  unfold c3FullCache
  rw [List.length_map, List.length_range]

theorem c3FullCache_fresh : aKey MAX_CACHE_SIZE ∉ c3FullCache.map Prod.fst := by
  unfold c3FullCache
  rw [show ((List.range MAX_CACHE_SIZE).map (fun n => (aKey n, ([] : List TransLine)))).map Prod.fst =
      (List.range MAX_CACHE_SIZE).map aKey from by
    rw [List.map_map]; rfl]
  intro h
  rcases List.mem_map.mp h with ⟨n, hn, heq⟩
  have := aKey_injective heq
  rw [List.mem_range] at hn
  omega

theorem c3Keys_nodup : c3Keys.Nodup := by
  unfold c3Keys
  exact (List.nodup_range _).map aKey_injective

theorem c3Keys_length : c3Keys.length = MAX_CACHE_SIZE + 1 := by
  unfold c3Keys
  rw [List.length_map, List.length_range]

/-- Witness for C3: the three conjuncts applied at concrete inputs. -/
theorem c3_witness :
    (([] : Cache).length ≤ MAX_CACHE_SIZE ∧
      (cache_put [] (aKey 0) []).length ≤ MAX_CACHE_SIZE) ∧
    (c3FullCache.length = MAX_CACHE_SIZE ∧
      aKey MAX_CACHE_SIZE ∉ c3FullCache.map Prod.fst ∧
      cache_put c3FullCache (aKey MAX_CACHE_SIZE) [] =
        c3FullCache.tail ++ [(aKey MAX_CACHE_SIZE, [])]) ∧
    (c3Keys.Nodup ∧ c3Keys.length = MAX_CACHE_SIZE + 1 ∧
      c3Keys.foldl (fun c k => cache_put c k ((fun _ => ([] : List TransLine)) k)) [] =
        c3Keys.tail.map (fun k => (k, [])) ∧
      ∀ k₀, c3Keys.head? = some k₀ →
        k₀ ∉ (c3Keys.foldl (fun c k =>
          cache_put c k ((fun _ => ([] : List TransLine)) k)) []).map Prod.fst) := by
  refine ⟨⟨by simp, c3_cache_fifo_bound.1 [] (aKey 0) [] (by simp)⟩,
    ⟨c3FullCache_length, c3FullCache_fresh,
      c3_cache_fifo_bound.2.1 c3FullCache (aKey MAX_CACHE_SIZE) []
        c3FullCache_length c3FullCache_fresh⟩,
    c3Keys_nodup, c3Keys_length, ?_⟩
  have := c3_cache_fifo_bound.2.2 c3Keys (fun _ => []) c3Keys_nodup c3Keys_length
  exact this

/-- C7: a put whose key is already present overwrites the value without
changing the eviction order: the insertion-ordered key sequence is
unchanged, the key now maps to the new value, and other keys are untouched.
Consequently, on the generalized capacity-2 instance, inserting A then B,
overwriting A, and inserting C evicts A (not B). -/
theorem c7_overwrite_preserves_order :
    (∀ (d : Cache) (k : String) (v : List TransLine),
        d.length ≤ MAX_CACHE_SIZE → k ∈ d.map Prod.fst →
        (cache_put d k v).map Prod.fst = d.map Prod.fst ∧
        cache_get (cache_put d k v) k = some v ∧
        ∀ k', k' ≠ k → cache_get (cache_put d k v) k' = cache_get d k') ∧
    cache_put_cap 2 (cache_put_cap 2 (cache_put_cap 2
        (cache_put_cap 2 [] "A" [⟨0, "w", "tA"⟩]) "B" [⟨0, "w", "tB"⟩])
        "A" [⟨0, "w", "tA2"⟩]) "C" [⟨0, "w", "tC"⟩] =
      [("B", [⟨0, "w", "tB"⟩]), ("C", [⟨0, "w", "tC"⟩])] := by
  constructor
  · intro d k v hlen hk
    rw [show cache_put d k v = dict_set d k v from
      cache_put_cap_present MAX_CACHE_SIZE d k v hlen hk]
    exact ⟨dict_set_present_keys d k v hk,
      cache_get_dict_set_self d k v hk,
      fun k' hk' => cache_get_dict_set_other d k k' v hk'⟩
  · decide

/-- Witness for C7: the quantified conjunct applied at a concrete
two-entry cache with key "A" present. -/
theorem c7_witness :
    (([("A", []), ("B", [])] : Cache).length ≤ MAX_CACHE_SIZE ∧
      "A" ∈ ([("A", []), ("B", [])] : Cache).map Prod.fst) ∧
    ((cache_put [("A", []), ("B", [])] "A" [⟨0, "w", "t"⟩]).map Prod.fst =
        ([("A", []), ("B", [])] : Cache).map Prod.fst ∧
      cache_get (cache_put [("A", []), ("B", [])] "A" [⟨0, "w", "t"⟩]) "A" =
        some [⟨0, "w", "t"⟩] ∧
      ∀ k', k' ≠ "A" →
        cache_get (cache_put [("A", []), ("B", [])] "A" [⟨0, "w", "t"⟩]) k' =
          cache_get [("A", []), ("B", [])] k') :=
  ⟨⟨by decide, by decide⟩,
    c7_overwrite_preserves_order.1 [("A", []), ("B", [])] "A" [⟨0, "w", "t"⟩]
      (by decide) (by decide)⟩

/-- C10: `translate_line` preserves the input line's offset and original
text whether the remote call succeeds or fails; only the translated-text
field is added (its value is the translation on success, the original text
on failure). -/
theorem c10_translate_line_frame (translator : String → Except String String)
    (line : RawLine) :
    (translate_line translator line).startTimeMs = line.startTimeMs ∧
    (translate_line translator line).words = line.words ∧
    (∀ t, translator line.words = .ok t →
      (translate_line translator line).translated = t) ∧
    (∀ e, translator line.words = .error e →
      (translate_line translator line).translated = line.words) := by
  refine ⟨?_, ?_, ?_, ?_⟩
  · rfl
  · rfl
  · intro t ht
    unfold translate_line
    dsimp only
    rw [ht]
  · intro e he
    unfold translate_line
    dsimp only
    rw [he]

/-- C1 (code-bug evidence): `translate_words` delivers the batch to the
cache and the UI callback in worker completion order, not in the original
offset order.  With two lines at offsets [0, 1000], a translator that
succeeds identically on every line, and completion order [second, first],
the delivered sequence (and the cached value) carries offsets [1000, 0]
instead of the input order [0, 1000]. -/
theorem c1_completion_order_bug :
    translate_words (fun s => .ok s) [⟨0, "x"⟩, ⟨1000, "y"⟩] "t" "id" [1, 0]
        [] =
      .ok ([("id", [⟨1000, "y", "y"⟩, ⟨0, "x", "x"⟩])],
        [⟨1000, "y", "y"⟩, ⟨0, "x", "x"⟩]) ∧
    (([1, 0] : List Nat).Perm (List.range 2)) ∧
    List.map (fun l => l.startTimeMs)
        ([⟨1000, "y", "y"⟩, ⟨0, "x", "x"⟩] : List TransLine) ≠
      List.map (fun l => l.startTimeMs)
        (([⟨0, "x"⟩, ⟨1000, "y"⟩] : List RawLine).map
          (translate_line (fun s => .ok s))) := by
  refine ⟨by rfl, ?_, by decide⟩
  have : ([1, 0] : List Nat).Perm [0, 1] := List.Perm.swap 0 1 []
  simpa [List.range] using this

/-- C8 (counterexample): loading a present-but-corrupt persisted cache
store raises out of `initialize_main_gui` instead of yielding an empty
cache, contradicting the claim that a corrupt store is treated as an empty
cache and is never fatal to initialization. -/
theorem c8_counterexample :
    load_cache (.corrupt "bad pickle") = .error (.exn "bad pickle") ∧
    load_cache (.corrupt "bad pickle") ≠ .ok [] := by
  exact ⟨rfl, by intro h; cases h⟩

/-- C8 (amended): a missing persisted store yields an empty cache and is
not fatal; a present, deserializable store yields its contents; but a
corrupt store raises the deserialization error out of initialization
(caught only by the authentication handler of `setup_gui`, which abandons
the main-GUI initialization). -/
theorem c8_load_cache :
    load_cache .missing = .ok [] ∧
    (∀ c, load_cache (.valid c) = .ok c) ∧
    (∀ m, load_cache (.corrupt m) = .error (.exn m)) :=
  ⟨rfl, fun _ => rfl, fun _ => rfl⟩

theorem perm_filterMap {α β : Type} (f : α → Option β) {l₁ l₂ : List α}
    (p : l₁.Perm l₂) : (l₁.filterMap f).Perm (l₂.filterMap f) := by
  induction p with
  | nil => simp
  | cons x _ ih =>
    rw [List.filterMap_cons, List.filterMap_cons]
    cases f x with
    | none => exact ih
    | some b => exact ih.cons b
  | swap x y l =>
    rw [List.filterMap_cons, List.filterMap_cons,
      List.filterMap_cons, List.filterMap_cons]
    cases f x with
    | none =>
      cases f y with
      | none => exact List.Perm.refl _
      | some b => exact List.Perm.refl _
    | some a =>
      cases f y with
      | none => exact List.Perm.refl _
      | some b => exact List.Perm.swap a b _
  | trans _ _ ih₁ ih₂ => exact ih₁.trans ih₂

theorem filterMap_get_range {α β : Type} (g : α → β) (l : List α) :
    (List.range l.length).filterMap (fun i => (l.get? i).map g) = l.map g := by
  induction l with
  | nil => rfl
  | cons x xs ih =>
    rw [List.length_cons, List.range_succ_eq_map, List.filterMap_cons]
    have h0 : ((x :: xs).get? 0).map g = some (g x) := rfl
    rw [h0]
    rw [List.filterMap_map]
    have hcomp :
        ((fun i => ((x :: xs).get? i).map g) ∘ (fun i => i + 1)) =
          fun i => (xs.get? i).map g := by
      funext i
      rfl
    rw [hcomp, ih, List.map_cons]

theorem as_completed_results_perm (translator : String → Except String String)
    (lyrics : List RawLine) (order : List Nat)
    (horder : order.Perm (List.range lyrics.length)) :
    (as_completed_results translator lyrics order).Perm
      (lyrics.map (translate_line translator)) := by
  unfold as_completed_results
  have h1 := perm_filterMap
    (fun i => (lyrics.get? i).map (translate_line translator)) horder
  rw [filterMap_get_range (translate_line translator) lyrics] at h1
  exact h1

/-- C6: a line whose individual remote translation call fails appears in
the delivered batch with its translated text equal to its original text;
per-line failure neither aborts the batch (the delivered batch is a
permutation of the per-line results of all input lines, so it has one
result per dispatched line) nor affects any other line (each line's result
depends only on its own translator call). -/
theorem c6_per_line_fallback (translator : String → Except String String)
    (lyrics : List RawLine) (song_name song_id : String)
    (order : List Nat) (cache : Cache) (tname : String)
    (hsong : translator song_name = .ok tname)
    (horder : order.Perm (List.range lyrics.length))
    (i : Nat) (line : RawLine) (hi : lyrics.get? i = some line)
    (e : String) (hfail : translator line.words = .error e) :
    ∃ cache1 tl,
      translate_words translator lyrics song_name song_id order cache =
        .ok (cache1, tl) ∧
      tl.Perm (lyrics.map (translate_line translator)) ∧
      tl.length = lyrics.length ∧
      translate_line translator line =
        { startTimeMs := line.startTimeMs, words := line.words,
          translated := line.words } ∧
      translate_line translator line ∈ tl ∧
      (∀ (l' : RawLine) (t : String), l' ∈ lyrics →
        translator l'.words = .ok t →
        translate_line translator l' =
          { startTimeMs := l'.startTimeMs, words := l'.words,
            translated := t }) := by
  refine ⟨cache_put cache song_id (as_completed_results translator lyrics order),
    as_completed_results translator lyrics order, ?_, ?_, ?_, ?_, ?_, ?_⟩
  · unfold translate_words
    rw [hsong]
  · exact as_completed_results_perm translator lyrics order horder
  · rw [(as_completed_results_perm translator lyrics order horder).length_eq,
      List.length_map]
  · unfold translate_line
    dsimp only
    rw [hfail]
  · have hperm := as_completed_results_perm translator lyrics order horder
    have hmem : translate_line translator line ∈
        lyrics.map (translate_line translator) :=
      List.mem_map_of_mem _ (List.get?_mem hi)
    exact hperm.symm.subset hmem
  · intro l' t _ ht
    unfold translate_line
    dsimp only
    rw [ht]

/-- Witness for C6: the theorem applied at a concrete three-line batch
whose middle line fails to translate. -/
theorem c6_witness :
    ((fun s => if s = "b" then .error "quota" else .ok (String.append "T" s) :
        String → Except String String) "name" = .ok "Tname" ∧
      ([2, 0, 1] : List Nat).Perm
        (List.range ([⟨0, "a"⟩, ⟨1000, "b"⟩, ⟨2000, "c"⟩] : List RawLine).length) ∧
      ([⟨0, "a"⟩, ⟨1000, "b"⟩, ⟨2000, "c"⟩] : List RawLine).get? 1 =
        some ⟨1000, "b"⟩ ∧
      (fun s => if s = "b" then .error "quota" else .ok (String.append "T" s) :
        String → Except String String) "b" = .error "quota") ∧
    ∃ cache1 tl,
      translate_words
          (fun s => if s = "b" then .error "quota" else .ok (String.append "T" s))
          [⟨0, "a"⟩, ⟨1000, "b"⟩, ⟨2000, "c"⟩] "name" "id" [2, 0, 1] [] =
        .ok (cache1, tl) ∧
      tl.Perm (([⟨0, "a"⟩, ⟨1000, "b"⟩, ⟨2000, "c"⟩] : List RawLine).map
        (translate_line
          (fun s => if s = "b" then .error "quota" else .ok (String.append "T" s)))) ∧
      tl.length = ([⟨0, "a"⟩, ⟨1000, "b"⟩, ⟨2000, "c"⟩] : List RawLine).length ∧
      translate_line
          (fun s => if s = "b" then .error "quota" else .ok (String.append "T" s))
          ⟨1000, "b"⟩ =
        { startTimeMs := 1000, words := "b", translated := "b" } ∧
      translate_line
          (fun s => if s = "b" then .error "quota" else .ok (String.append "T" s))
          ⟨1000, "b"⟩ ∈ tl ∧
      (∀ (l' : RawLine) (t : String),
        l' ∈ ([⟨0, "a"⟩, ⟨1000, "b"⟩, ⟨2000, "c"⟩] : List RawLine) →
        (fun s => if s = "b" then .error "quota" else .ok (String.append "T" s) :
          String → Except String String) l'.words = .ok t →
        translate_line
            (fun s => if s = "b" then .error "quota" else .ok (String.append "T" s))
            l' =
          { startTimeMs := l'.startTimeMs, words := l'.words,
            translated := t }) := by
  refine ⟨⟨by rfl, by decide, by decide, by rfl⟩, ?_⟩
  exact c6_per_line_fallback
    (fun s => if s = "b" then .error "quota" else .ok (String.append "T" s))
    [⟨0, "a"⟩, ⟨1000, "b"⟩, ⟨2000, "c"⟩] "name" "id" [2, 0, 1] [] "Tname"
    (by rfl) (by decide) 1 ⟨1000, "b"⟩ (by decide) "quota" (by rfl)

theorem tree_time_roundtrip (ms : Nat) :
    tree_item_start_time (ms_to_min_sec ms) = ms / 1000 * 1000 := by
  unfold tree_item_start_time ms_to_min_sec
  dsimp only
  omega

theorem lastTrunc_none_iff (pos : Int) (ls : List RawLine) :
    lastTruncatedOffsetLE pos ls = none ↔
      ∀ j l, ls.get? j = some l →
        pos < ((l.startTimeMs / 1000 * 1000 : Nat) : Int) := by
  induction ls with
  | nil =>
    constructor
    · intro _ j l hj
      simp at hj
    · intro _
      rfl
  | cons x xs ih =>
    cases hrec : lastTruncatedOffsetLE pos xs with
    | some j₀ =>
      constructor
      · intro h
        unfold lastTruncatedOffsetLE at h
        rw [hrec] at h
        cases h
      · intro hall
        have : lastTruncatedOffsetLE pos xs = none :=
          ih.mpr (fun j l hj => hall (j + 1) l hj)
        rw [this] at hrec
        cases hrec
    | none =>
      have hxs := ih.mp hrec
      constructor
      · intro h j l hj
        unfold lastTruncatedOffsetLE at h
        rw [hrec] at h
        by_cases hc : ((x.startTimeMs / 1000 * 1000 : Nat) : Int) ≤ pos
        · rw [if_pos hc] at h
          cases h
        · cases j with
          | zero =>
            have : l = x := by
              rw [show (x :: xs).get? 0 = some x from rfl] at hj
              exact (Option.some.inj hj).symm
            rw [this]
            exact not_le.mp hc
          | succ jj => exact hxs jj l hj
      · intro hall
        unfold lastTruncatedOffsetLE
        rw [hrec]
        rw [if_neg (not_le.mpr (hall 0 x rfl))]

theorem lastTrunc_some_iff (pos : Int) :
    ∀ (ls : List RawLine) (j : Nat),
      lastTruncatedOffsetLE pos ls = some j ↔
        ((∃ l, ls.get? j = some l ∧
            ((l.startTimeMs / 1000 * 1000 : Nat) : Int) ≤ pos) ∧
          ∀ j' l', j < j' → ls.get? j' = some l' →
            pos < ((l'.startTimeMs / 1000 * 1000 : Nat) : Int)) := by
  intro ls
  induction ls with
  | nil =>
    intro j
    constructor
    · intro h
      cases h
    · intro ⟨⟨l, hl, _⟩, _⟩
      simp at hl
  | cons x xs ih =>
    intro j
    cases hrec : lastTruncatedOffsetLE pos xs with
    | some j₀ =>
      obtain ⟨⟨l₀, hl₀, hle₀⟩, hmax₀⟩ := (ih j₀).mp hrec
      constructor
      · intro h
        unfold lastTruncatedOffsetLE at h
        rw [hrec] at h
        have hj : j = j₀ + 1 := (Option.some.inj h).symm
        subst hj
        refine ⟨⟨l₀, hl₀, hle₀⟩, ?_⟩
        intro j' l' hj' hget
        cases j' with
        | zero => omega
        | succ j'' => exact hmax₀ j'' l' (by omega) hget
      · intro ⟨⟨l, hl, hle⟩, hmax⟩
        unfold lastTruncatedOffsetLE
        rw [hrec]
        cases j with
        | zero =>
          exact absurd hle₀ (not_le.mpr (hmax (j₀ + 1) l₀ (by omega) hl₀))
        | succ jj =>
          have : lastTruncatedOffsetLE pos xs = some jj := by
            apply (ih jj).mpr
            exact ⟨⟨l, hl, hle⟩,
              fun j' l' hj' hget => hmax (j' + 1) l' (by omega) hget⟩
          rw [this] at hrec
          rw [Option.some.inj hrec]
    | none =>
      have hxsnone := (lastTrunc_none_iff pos xs).mp hrec
      constructor
      · intro h
        unfold lastTruncatedOffsetLE at h
        rw [hrec] at h
        by_cases hc : ((x.startTimeMs / 1000 * 1000 : Nat) : Int) ≤ pos
        · rw [if_pos hc] at h
          have hj : j = 0 := (Option.some.inj h).symm
          subst hj
          refine ⟨⟨x, rfl, hc⟩, ?_⟩
          intro j' l' hj' hget
          cases j' with
          | zero => omega
          | succ j'' => exact hxsnone j'' l' hget
        · rw [if_neg hc] at h
          cases h
      · intro ⟨⟨l, hl, hle⟩, hmax⟩
        unfold lastTruncatedOffsetLE
        rw [hrec]
        cases j with
        | zero =>
          have : l = x := by
            rw [show (x :: xs).get? 0 = some x from rfl] at hl
            exact (Option.some.inj hl).symm
          subst this
          rw [if_pos hle]
        | succ jj =>
          exact absurd hle (not_le.mpr (hxsnone jj l hl))

theorem lastTrunc_cons (pos : Int) (x : RawLine) (xs : List RawLine) :
    lastTruncatedOffsetLE pos (x :: xs) =
      (match lastTruncatedOffsetLE pos xs with
       | some j => some (j + 1)
       | none =>
         if ((x.startTimeMs / 1000 * 1000 : Nat) : Int) ≤ pos then some 0
         else none) := rfl

theorem update_current_lyric_go_eq (pos : Int) :
    ∀ (lines : List RawLine) (i : Nat) (acc : Option Nat),
      List.Pairwise (fun a b => a.startTimeMs ≤ b.startTimeMs) lines →
      update_current_lyric_go pos (lines.map insert_lyric_row) i acc =
        (match lastTruncatedOffsetLE pos lines with
         | some j => some (i + j)
         | none => acc) := by
  intro lines
  induction lines with
  | nil =>
    intro i acc _
    rfl
  | cons x xs ih =>
    intro i acc hpw
    obtain ⟨hhead, htail⟩ := List.pairwise_cons.mp hpw
    rw [List.map_cons]
    unfold update_current_lyric_go
    have hstart : tree_item_start_time (insert_lyric_row x).time =
        x.startTimeMs / 1000 * 1000 := tree_time_roundtrip x.startTimeMs
    rw [hstart]
    by_cases hc : ((x.startTimeMs / 1000 * 1000 : Nat) : Int) ≤ pos
    · rw [if_pos hc, ih (i + 1) (some i) htail, lastTrunc_cons]
      cases hrec : lastTruncatedOffsetLE pos xs with
      | some j =>
        dsimp only
        congr 1
        omega
      | none =>
        dsimp only
        rw [if_pos hc]
        dsimp only
        rw [Nat.add_zero]
    · rw [if_neg hc, lastTrunc_cons]
      have hnone : lastTruncatedOffsetLE pos xs = none := by
        apply (lastTrunc_none_iff pos xs).mpr
        intro j l hj
        have hmem : l ∈ xs := List.get?_mem hj
        have hle := hhead l hmem
        have htr : x.startTimeMs / 1000 * 1000 ≤ l.startTimeMs / 1000 * 1000 :=
          Nat.mul_le_mul_right 1000 (Nat.div_le_div_right hle)
        calc pos < ((x.startTimeMs / 1000 * 1000 : Nat) : Int) := not_le.mp hc
          _ ≤ ((l.startTimeMs / 1000 * 1000 : Nat) : Int) := by exact_mod_cast htr
      rw [hnone]
      dsimp only
      rw [if_neg hc]

/-- C2 (counterexample): with a single line at offset 4999 ms and position
4000 ms, no line has offset at or before the position, so per the claim
nothing is selected; the code nevertheless selects row 0, because it
compares the offset truncated to whole seconds (the displayed `0:04`). -/
theorem c2_counterexample :
    update_current_lyric
        (([⟨4999, "la"⟩] : List RawLine).map insert_lyric_row) 4000 = some 0 ∧
    ¬ (((4999 : Nat) : Int) ≤ 4000) := by
  decide

/-- C2 (amended): for a lyric sequence sorted ascending by offset, the
resolution selects the last (greatest-index) line whose offset truncated
down to whole seconds (the granularity of the displayed `M:SS` cell the
source parses back) is at or before the position; no line is selected when
no line qualifies; equal truncated offsets resolve to the later line in
sequence order (the greatest qualifying index). -/
theorem c2_current_line_truncated (lines : List RawLine) (pos : Int)
    (hs : List.Pairwise (fun a b => a.startTimeMs ≤ b.startTimeMs) lines) :
    (∀ j, update_current_lyric (lines.map insert_lyric_row) pos = some j ↔
        ((∃ l, lines.get? j = some l ∧
            ((l.startTimeMs / 1000 * 1000 : Nat) : Int) ≤ pos) ∧
          ∀ j' l', j < j' → lines.get? j' = some l' →
            pos < ((l'.startTimeMs / 1000 * 1000 : Nat) : Int))) ∧
    (update_current_lyric (lines.map insert_lyric_row) pos = none ↔
        ∀ j l, lines.get? j = some l →
          pos < ((l.startTimeMs / 1000 * 1000 : Nat) : Int)) := by
  have hgo := update_current_lyric_go_eq pos lines 0 none hs
  unfold update_current_lyric
  rw [hgo]
  cases hrec : lastTruncatedOffsetLE pos lines with
  | some j₀ =>
    constructor
    · intro j
      dsimp only
      rw [Nat.zero_add]
      have hiff := lastTrunc_some_iff pos lines j
      rw [hrec] at hiff
      exact hiff
    · dsimp only
      constructor
      · intro h
        cases h
      · intro hall
        have := (lastTrunc_none_iff pos lines).mpr hall
        rw [this] at hrec
        cases hrec
  | none =>
    constructor
    · intro j
      dsimp only
      constructor
      · intro h
        cases h
      · intro hrhs
        have := (lastTrunc_some_iff pos lines j).mpr hrhs
        rw [this] at hrec
        cases hrec
    · dsimp only
      exact iff_of_true rfl ((lastTrunc_none_iff pos lines).mp hrec)

/-- Witness for C2: the amended theorem applied at the specification's
example sequence (offsets 0, 5000, 10000) and position 4999. -/
theorem c2_witness :
    List.Pairwise (fun a b => a.startTimeMs ≤ b.startTimeMs)
      ([⟨0, "a"⟩, ⟨5000, "b"⟩, ⟨10000, "c"⟩] : List RawLine) ∧
    update_current_lyric
      (([⟨0, "a"⟩, ⟨5000, "b"⟩, ⟨10000, "c"⟩] : List RawLine).map
        insert_lyric_row) 4999 = some 0 ∧
    ((∀ j, update_current_lyric
          (([⟨0, "a"⟩, ⟨5000, "b"⟩, ⟨10000, "c"⟩] : List RawLine).map
            insert_lyric_row) 4999 = some j ↔
        ((∃ l, ([⟨0, "a"⟩, ⟨5000, "b"⟩, ⟨10000, "c"⟩] : List RawLine).get? j =
              some l ∧
            ((l.startTimeMs / 1000 * 1000 : Nat) : Int) ≤ 4999) ∧
          ∀ j' l', j < j' →
            ([⟨0, "a"⟩, ⟨5000, "b"⟩, ⟨10000, "c"⟩] : List RawLine).get? j' =
              some l' →
            (4999 : Int) < ((l'.startTimeMs / 1000 * 1000 : Nat) : Int))) ∧
      (update_current_lyric
          (([⟨0, "a"⟩, ⟨5000, "b"⟩, ⟨10000, "c"⟩] : List RawLine).map
            insert_lyric_row) 4999 = none ↔
        ∀ j l, ([⟨0, "a"⟩, ⟨5000, "b"⟩, ⟨10000, "c"⟩] : List RawLine).get? j =
            some l →
          (4999 : Int) < ((l.startTimeMs / 1000 * 1000 : Nat) : Int))) :=
  ⟨by decide, by decide,
    c2_current_line_truncated [⟨0, "a"⟩, ⟨5000, "b"⟩, ⟨10000, "c"⟩] 4999
      (by decide)⟩

theorem match_row_time (tl : List TransLine) (row : Row) :
    (match_row tl row).time = row.time ∧ (match_row tl row).words = row.words := by
  unfold match_row
  cases tl.find? (fun lyric =>
      decide (ms_to_min_sec lyric.startTimeMs = row.time ∧
              lyric.words = row.words)) with
  | none => exact ⟨rfl, rfl⟩
  | some lyric => exact ⟨rfl, rfl⟩

/-- C4 (counterexample): a late batch computed for track X, whose lines
share no (time, words) pair with the currently displayed sequence of track
Y, is nevertheless applied to Y's display: `update_translations` performs
no track-id comparison and unconditionally overwrites the first displayed
row's translation, so Y's row "hello" ends up showing X's translation
"good day". -/
theorem c4_counterexample :
    update_translations
        [{ time := { minutes := 0, seconds := 0 }, words := "hello",
           translated := "" }]
        [{ startTimeMs := 0, words := "bonjour", translated := "good day" }] =
      .ok [{ time := { minutes := 0, seconds := 0 }, words := "hello",
             translated := "good day" }] ∧
    ([{ time := { minutes := 0, seconds := 0 }, words := "hello",
        translated := "good day" }] : List Row) ≠
      [{ time := { minutes := 0, seconds := 0 }, words := "hello",
         translated := "" }] := by
  exact ⟨rfl, by decide⟩

/-- C4 (amended): a late-arriving batch is still written to the cache under
the track id it was computed for (the id captured at spawn time), but no
track-id staleness comparison exists: the callback rewrites rows purely by
matching displayed time and original words, and additionally always
overwrites the first displayed row's translation with the first element of
the arriving batch, so a stale batch can modify the currently displayed
sequence. -/
theorem c4_stale_result_caching :
    (∀ (translator : String → Except String String) (lyrics : List RawLine)
        (song_name song_id : String) (order : List Nat) (cache : Cache)
        (tname : String), translator song_name = .ok tname →
        translate_words translator lyrics song_name song_id order cache =
          .ok (cache_put cache song_id
                (as_completed_results translator lyrics order),
              as_completed_results translator lyrics order)) ∧
    (∀ (r : Row) (rs : List Row) (l : TransLine) (ls : List TransLine),
        ∃ rows,
          update_translations (r :: rs) (l :: ls) = .ok rows ∧
          rows.head?.map Row.time = some r.time ∧
          rows.head?.map Row.words = some r.words ∧
          rows.head?.map Row.translated = some l.translated) := by
  constructor
  · intro translator lyrics song_name song_id order cache tname hsong
    unfold translate_words
    rw [hsong]
  · intro r rs l ls
    refine ⟨set_first_translated l.translated
      ((r :: rs).map (match_row (l :: ls))), rfl, ?_, ?_, ?_⟩
    · rw [List.map_cons]
      unfold set_first_translated
      dsimp only
      simp only [List.head?_cons, Option.map_some']
      rw [(match_row_time (l :: ls) r).1]
    · rw [List.map_cons]
      unfold set_first_translated
      dsimp only
      simp only [List.head?_cons, Option.map_some']
      rw [(match_row_time (l :: ls) r).2]
    · rfl

/-- Witness for C4: the first conjunct applied at a concrete batch for
track "X" (the second conjunct has no propositional hypothesis). -/
theorem c4_witness :
    ((fun _ => (.ok "T" : Except String String)) "name" = .ok "T") ∧
    translate_words (fun _ => .ok "T") [⟨0, "bonjour"⟩] "name" "X" [0] [] =
      .ok (cache_put []
            (String.mk ['X'])
            (as_completed_results (fun _ => .ok "T") [⟨0, "bonjour"⟩] [0]),
          as_completed_results (fun _ => .ok "T") [⟨0, "bonjour"⟩] [0]) := by
  refine ⟨rfl, ?_⟩
  have h := c4_stale_result_caching.1 (fun _ => .ok "T") [⟨0, "bonjour"⟩]
    "name" "X" [0] [] "T" rfl
  exact h

theorem update_lyrics_unavailable (sp : SpClient) (st : AppState)
    (s : Song) (resp : Option LyricsResp)
    (hcs : sp.get_current_song = .ok s)
    (hlyr : sp.get_lyrics s.id = .ok resp)
    (hunav : ∀ hd tl, extract_lyrics_lines resp ≠ some (hd :: tl)) :
    update_lyrics sp st = .ok ({ st with tree := [no_lyrics_row] }, none) := by
  unfold update_lyrics
  rw [hcs]
  dsimp only [Bind.bind, Except.bind]
  rw [hlyr]
  dsimp only
  cases hld : extract_lyrics_lines resp with
  | none => rfl
  | some lines =>
    cases lines with
    | nil => rfl
    | cons hd tl => exact absurd hld (hunav hd tl)

/-- C5 (counterexample): on a tick where the playing track changed and the
lyrics fetch raises, the exception escapes `update_display` (which has no
try/except around `update_lyrics`), so the trailing
`self.root.after(500, self.update_display)` never runs and the poll loop is
not rescheduled — contradicting the claim that every tick-level exception
is caught and the next tick is always scheduled. -/
theorem c5_counterexample :
    update_display spLyricsErrClient st0 = .error (.exn "network") ∧
    ∀ out : TickOut,
      (.error (.exn "network") : Except PyErr TickOut) ≠ .ok out := by
  refine ⟨by rfl, ?_⟩
  intro out h
  cases h

/-- C5 (amended): failures of the playback-state query are caught within
the tick (by the try/except of `get_current_playback_position`), treated as
"no track playing", and the tick completes and schedules its successor;
moreover every tick that does not raise schedules the next tick.  But
exceptions raised during the song-change lyrics update (`update_lyrics`:
current-song refetch, lyrics fetch, the missing-language `KeyError`, or an
`IndexError` in a cache-hit `update_translations`) propagate uncaught and
the next tick is not scheduled. -/
theorem c5_tick_error_handling :
    (∀ (sp : SpClient) (st : AppState) (e : PyErr),
        sp.get_current_song = .error e →
        update_display sp st =
          .ok { st := st, spawned := none,
                selection := none, fetched_lyrics := false,
                scheduled_next := true }) ∧
    (∀ (sp : SpClient) (st : AppState) (out : TickOut),
        update_display sp st = .ok out → out.scheduled_next = true) := by
  constructor
  · intro sp st e h
    unfold update_display get_current_playback_position
    rw [h]
  · intro sp st out h
    unfold update_display get_current_playback_position at h
    cases hcs : sp.get_current_song with
    | error e =>
      rw [hcs] at h
      dsimp only at h
      cases h
      rfl
    | ok s =>
      rw [hcs] at h
      dsimp only at h
      by_cases hid : some s.id ≠ st.current_song_id
      · rw [if_pos hid] at h
        cases hul : update_lyrics sp ({ st with current_song_id := some s.id }) with
        | error e =>
          rw [hul] at h
          cases h
        | ok p =>
          rw [hul] at h
          cases p with
          | mk st2 sp_args =>
            dsimp only at h
            cases h
            rfl
      · rw [if_neg hid] at h
        cases h
        rfl

/-- Witness for C5: both conjuncts applied at a client whose playback query
raises. -/
theorem c5_witness :
    spErrClient.get_current_song = .error (.exn "net") ∧
    update_display spErrClient st0 =
      .ok { st := st0, spawned := none, selection := none,
            fetched_lyrics := false, scheduled_next := true } ∧
    ({ st := st0, spawned := none, selection := none,
       fetched_lyrics := false, scheduled_next := true } : TickOut).scheduled_next = true := by
  refine ⟨rfl, ?_, ?_⟩
  · exact c5_tick_error_handling.1 spErrClient st0 (.exn "net") rfl
  · exact c5_tick_error_handling.2 spErrClient st0 _
      (c5_tick_error_handling.1 spErrClient st0 (.exn "net") rfl)

/-- C9 (counterexample): for malformed lyrics data in which the lines are
present but the `language` key is missing (the specification's §4.3 lists
"missing language" as malformed data), the tick raises `KeyError` after the
tree has already been cleared, so the displayed sequence is not the single
placeholder line the claim requires — no placeholder is ever inserted and
the tick aborts. -/
theorem c9_counterexample :
    update_display spLangMissingClient st0 = .error (.keyError "language") ∧
    ∀ out : TickOut,
      (.error (.keyError "language") : Except PyErr TickOut) ≠ .ok out := by
  refine ⟨by rfl, ?_⟩
  intro out h
  cases h

/-- C9 (amended): when the lyrics source returns no data, or data whose
`lyrics`/`lines` structure is missing or empty, the tick completes with the
displayed sequence equal to exactly one synthetic placeholder line and the
tracked id updated to the playing track; and on any tick whose tracked id
already equals the playing track's id, `get_lyrics` is not called at all,
so the fetch is never retried while the track remains current.  (Malformed
data with lines present but language missing instead raises: see the
counterexample.) -/
theorem c9_unavailable_placeholder :
    (∀ (sp : SpClient) (st : AppState) (s : Song) (resp : Option LyricsResp),
        sp.get_current_song = .ok s →
        some s.id ≠ st.current_song_id →
        sp.get_lyrics s.id = .ok resp →
        (∀ hd tl, extract_lyrics_lines resp ≠ some (hd :: tl)) →
        update_display sp st =
          .ok { st := { st with current_song_id := some s.id, tree := [no_lyrics_row] },
                spawned := none,
                selection := update_current_lyric [no_lyrics_row] s.progress_ms,
                fetched_lyrics := true, scheduled_next := true }) ∧
    (∀ (sp : SpClient) (st : AppState) (s : Song),
        sp.get_current_song = .ok s →
        st.current_song_id = some s.id →
        update_display sp st =
          .ok { st := st, spawned := none,
                selection := update_current_lyric st.tree s.progress_ms,
                fetched_lyrics := false, scheduled_next := true }) := by
  constructor
  · intro sp st s resp hcs hid hlyr hunav
    unfold update_display get_current_playback_position
    rw [hcs]
    dsimp only
    rw [if_pos hid]
    rw [update_lyrics_unavailable sp ({ st with current_song_id := some s.id })
      s resp hcs hlyr hunav]
  · intro sp st s hcs hcur
    unfold update_display get_current_playback_position
    rw [hcs]
    dsimp only
    rw [if_neg (by rw [hcur]; simp)]

/-- Witness for C9: the placeholder conjunct applied at a client with no
lyrics available and a fresh state, and the no-retry conjunct applied at a
state already tracking the same track. -/
theorem c9_witness :
    (spNoLyricsClient.get_current_song = .ok songX ∧
      some songX.id ≠ st0.current_song_id ∧
      spNoLyricsClient.get_lyrics songX.id = .ok none ∧
      (∀ hd tl, extract_lyrics_lines none ≠ some (hd :: tl)) ∧
      update_display spNoLyricsClient st0 =
        .ok { st := { st0 with current_song_id := some songX.id, tree := [no_lyrics_row] },
              spawned := none,
              selection := update_current_lyric [no_lyrics_row] songX.progress_ms,
              fetched_lyrics := true, scheduled_next := true }) ∧
    (spNoLyricsClient.get_current_song = .ok songX ∧
      stX.current_song_id = some songX.id ∧
      update_display spNoLyricsClient stX =
        .ok { st := stX, spawned := none,
              selection := update_current_lyric stX.tree songX.progress_ms,
              fetched_lyrics := false, scheduled_next := true }) := by
  constructor
  · refine ⟨rfl, by decide, rfl, ?_, ?_⟩
    · intro hd tl h
      cases h
    · exact c9_unavailable_placeholder.1 spNoLyricsClient st0 songX none rfl
        (by decide) rfl (by intro hd tl h; cases h)
  · exact ⟨rfl, rfl,
      c9_unavailable_placeholder.2 spNoLyricsClient stX songX rfl rfl⟩

/-- Witness for C10: the frame conditions applied at a concrete line whose
translator call fails, with the failure-case implication discharged. -/
theorem c10_witness :
    ((fun _ => (.error "bad" : Except String String)) "hi" = .error "bad") ∧
    (translate_line (fun _ => .error "bad") ⟨7, "hi"⟩).startTimeMs = 7 ∧
    (translate_line (fun _ => .error "bad") ⟨7, "hi"⟩).words = "hi" ∧
    (translate_line (fun _ => .error "bad") ⟨7, "hi"⟩).translated = "hi" :=
  ⟨rfl, (c10_translate_line_frame (fun _ => .error "bad") ⟨7, "hi"⟩).1,
    (c10_translate_line_frame (fun _ => .error "bad") ⟨7, "hi"⟩).2.1,
    (c10_translate_line_frame (fun _ => .error "bad") ⟨7, "hi"⟩).2.2.2 "bad" rfl⟩
